import Mathlib

/-!
Verification of the folder-scan-and-cache subsystem of
Random_Video_Player.py: the VideoScanner background worker (its run loop,
get_video_length and detect_orientation), the cache loading performed in
the VideoScanner constructor, and the subtree cache invalidation performed
by VideoPlayer.reload_current_folder.

Modelling conventions:
* Python floats (durations, modification times, frame dimensions) are
  modelled as rationals.
* The external collaborators are modelled by their observable responses:
  the ffprobe subprocess by an optional duration (none when the subprocess
  raises or its output cannot be parsed as a float), and the cv2 frame
  reader by the width and height it reports; cv2.VideoCapture.get returns
  0.0 for a property it cannot read, so an unreadable file is reported as
  width 0 and height 0.
* The directory walk is modelled by the list of normalized paths of the
  matching video files in walk order, together with a map fs giving each
  path its current modification time and probe responses; a path denotes
  one file on disk, so its attributes are fixed during one scan.
* A cache mapping (a Python dict keyed by normalized path) is modelled as
  a function from paths to optional entries; json.dump persists exactly
  this mapping, so the persisted snapshot is the final in-memory mapping.
-/

namespace RVP

/-- One value of media_info_cache: the dict literal built at line 91 of
the source, holding duration, orientation and mtime. -/
structure Entry where
  duration : ℚ
  orientation : String
  mtime : ℚ
  deriving DecidableEq

/-- The filesystem and collaborator responses for one file path: its
current modification time (os.path.getmtime), the ffprobe duration
(none when the subprocess fails or its output is unreadable), and the
frame width and height reported by cv2. -/
structure FileAttrs where
  mtime : ℚ
  ffprobe : Option ℚ
  width : ℚ
  height : ℚ

/-- The scan parameters stored by the VideoScanner constructor:
orientation filter, max length (0 meaning unlimited) and force_reload. -/
structure ScanRequest where
  orientation : String
  max_length : ℚ
  force_reload : Bool

/-- In-memory cache mapping from normalized path to entry. -/
def Cache : Type := String → Option Entry

/-- The empty mapping, the cold-start cache. -/
def emptyCache : Cache := fun _ => none

/-- Dict assignment media_info_cache[full] = info (line 92). -/
def upsert (c : Cache) (p : String) (e : Entry) : Cache :=
  fun q => if q = p then some e else c q

/-- get_video_length (lines 116-129): the ffprobe output parsed as a
float, or the sentinel 999999 when the subprocess raises or the output
is unreadable. -/
def get_video_length (probe : Option ℚ) : ℚ :=
  match probe with
  | some v => v
  | none => 999999

/-- detect_orientation (lines 131-140), applied to the width and height
that cv2 reports for the file. -/
def detect_orientation (w h : ℚ) : String :=
  if w > h then "Horizontal"
  else if h ≥ w then "Vertical"
  else "Both"

/-- The fresh info dict built at lines 89-91 when a file is (re)probed. -/
def fresh_info (fs : String → FileAttrs) (p : String) : Entry :=
  { duration := get_video_length (fs p).ffprobe
  , orientation := detect_orientation (fs p).width (fs p).height
  , mtime := (fs p).mtime }

/-- The reprobe condition of line 88: force_reload, or no prior entry, or
the stored mtime differs from the current one. -/
def needs_reprobe (force : Bool) (info : Option Entry) (mtime : ℚ) : Bool :=
  force ||
    (match info with
     | none => true
     | some e => decide (e.mtime ≠ mtime))

/-- The value of the local variable info after lines 85-92: the cached
entry when it is usable as-is, the fresh probe result otherwise. -/
def used_info (fs : String → FileAttrs) (force : Bool) (c : Cache) (p : String) : Entry :=
  match c p with
  | none => fresh_info fs p
  | some e => if force || decide (e.mtime ≠ (fs p).mtime) then fresh_info fs p else e

/-- The orientation skip condition of line 95. -/
def skip_orientation (filt o : String) : Bool :=
  decide (filt ≠ "Both") && decide (o ≠ filt)

/-- The length skip condition of lines 99-102: a nonzero max length
excludes strictly longer durations; max length 0 excludes nothing. -/
def skip_length (maxLen d : ℚ) : Bool :=
  decide (maxLen ≠ 0) && decide (d > maxLen)

/-- Whether the file reaches the append at line 104. -/
def keep_file (req : ScanRequest) (e : Entry) : Bool :=
  !(skip_orientation req.orientation e.orientation) &&
    !(skip_length req.max_length e.duration)

/-- The loop state of VideoScanner.run: the cache mapping, the videos
list, the emitted progress events, the scanned count, and the paths for
which each probing collaborator was invoked. -/
structure ScanAcc where
  cache : Cache
  videos : List String
  events : List (Nat × Nat)
  count : Nat
  probed_durations : List String
  probed_dims : List String

/-- One iteration of the per-file loop of run (lines 76-104): bump the
count and emit progress, evaluate the staleness rule, on a miss invoke
both probing collaborators and store the fresh entry, then apply both
filters to the entry in use and append the path on a pass. -/
def scan_step (fs : String → FileAttrs) (req : ScanRequest) (total : Nat)
    (acc : ScanAcc) (p : String) : ScanAcc :=
  { cache :=
      if needs_reprobe req.force_reload (acc.cache p) (fs p).mtime
      then upsert acc.cache p (fresh_info fs p) else acc.cache
  , videos :=
      if keep_file req (used_info fs req.force_reload acc.cache p)
      then acc.videos ++ [p] else acc.videos
  , events := acc.events ++ [(acc.count + 1, total)]
  , count := acc.count + 1
  , probed_durations :=
      if needs_reprobe req.force_reload (acc.cache p) (fs p).mtime
      then acc.probed_durations ++ [p] else acc.probed_durations
  , probed_dims :=
      if needs_reprobe req.force_reload (acc.cache p) (fs p).mtime
      then acc.probed_dims ++ [p] else acc.probed_dims }

/-- The loop state at the start of run. -/
def init_acc (c : Cache) : ScanAcc :=
  { cache := c, videos := [], events := [], count := 0
  , probed_durations := [], probed_dims := [] }

/-- The whole walk of VideoScanner.run (lines 62-104): total is counted
up front, then every matching file is processed in walk order. -/
def run_scan (fs : String → FileAttrs) (req : ScanRequest)
    (files : List String) (c : Cache) : ScanAcc :=
  files.foldl (scan_step fs req files.length) (init_acc c)

/-- Observable events of one scan, for the trace of lines 62-112. -/
inductive ScanEvent where
  | progress : Nat → Nat → ScanEvent
  | persist : Bool → ScanEvent
  | completed : List String → ScanEvent
  deriving DecidableEq

/-- Recognizer for the terminal completion event. -/
def is_completed : ScanEvent → Bool
  | .completed _ => true
  | _ => false

/-- The event trace of run (lines 62-112): the progress events of the
walk, then one attempt to persist the cache (lines 106-110; persist_ok
tells whether the json.dump write succeeds, and on failure the exception
is caught and only logged), then the single terminal emission of the
videos list (line 112). -/
def run_trace (fs : String → FileAttrs) (req : ScanRequest)
    (files : List String) (c : Cache) (persist_ok : Bool) : List ScanEvent :=
  ((run_scan fs req files c).events.map (fun pr => ScanEvent.progress pr.1 pr.2))
    ++ [ScanEvent.persist persist_ok,
        ScanEvent.completed (run_scan fs req files c).videos]

/-- State of the persisted cache store as the constructor finds it
(lines 54-60): absent, or present with the outcome of json.load, which
either returns the parsed mapping or raises a decode error. -/
inductive CacheStore where
  | absent : CacheStore
  | present : Except String Cache → CacheStore

/-- Cache loading in the VideoScanner constructor (lines 54-60): when the
store file exists the json.load outcome is taken as is, a decode error
included; when it is absent the cache starts empty. -/
def load_cache : CacheStore → Except String Cache
  | .absent => .ok emptyCache
  | .present r => r

/-- Python str.startswith on character lists: starts_with s t tells
whether t is a leading piece of s. -/
def starts_with : List Char → List Char → Bool
  | _, [] => true
  | [], _ :: _ => false
  | c :: s, d :: t => decide (c = d) && starts_with s t

/-- The key removal of reload_current_folder (lines 770-781): an entry is
kept exactly when its normalized key does not start with the normalized
folder string. Paths are modelled as character lists already in
normalized form, on which os.path.normpath is the identity. -/
def reload_current_folder_keys (cache : List (List Char × Entry))
    (folder : List Char) : List (List Char × Entry) :=
  cache.filter (fun kv => !(starts_with kv.1 folder))

/-- Modelled from the spec words for comparison: a path falls under a
folder when it is the folder itself or lies below it, that is, extends
the folder followed by a path separator. -/
def spec_falls_under (folder p : List Char) : Bool :=
  decide (p = folder) || starts_with p (folder ++ ['/'])

/-! Shared lemmas about one loop iteration. -/

/-- A cache miss, force_reload, or an mtime mismatch means the entry in
use is the freshly probed one. -/
theorem used_info_of_reprobe (fs : String → FileAttrs) (force : Bool) (c : Cache) (p : String)
    (h : needs_reprobe force (c p) (fs p).mtime = true) :
    used_info fs force c p = fresh_info fs p := by
  cases hc : c p with
  | none => simp [used_info, hc]
  | some e =>
    have h2 : (force || decide (e.mtime ≠ (fs p).mtime)) = true := by
      simpa [needs_reprobe, hc] using h
    simp only [used_info, hc]
    rw [if_pos h2]

/-- The reprobe condition of line 88 is off exactly when a prior entry
exists, force_reload is off and the stored mtime is current. -/
theorem needs_reprobe_false_iff (force : Bool) (info : Option Entry) (mt : ℚ) :
    needs_reprobe force info mt = false ↔
      force = false ∧ ∃ e, info = some e ∧ e.mtime = mt := by
  cases info with
  | none => simp [needs_reprobe]
  | some e => simp [needs_reprobe]

/-- A stored entry with the current mtime is used as-is when
force_reload is off. -/
theorem used_info_stored (fs : String → FileAttrs) (c : Cache) (p : String) (e : Entry)
    (he : c p = some e) (hm : e.mtime = (fs p).mtime) :
    used_info fs false c p = e := by
  simp [used_info, he, hm]

/-- The entry in use always carries the current modification time. -/
theorem used_info_mtime (fs : String → FileAttrs) (force : Bool) (c : Cache) (p : String) :
    (used_info fs force c p).mtime = (fs p).mtime := by
  cases hc : c p with
  | none => simp [used_info, hc, fresh_info]
  | some e =>
    by_cases hm : e.mtime = (fs p).mtime
    · cases force with
      | false => simp [used_info, hc, hm]
      | true => simp [used_info, hc, fresh_info]
    · simp [used_info, hc, hm, fresh_info]

/-- Processing one file leaves the cache unchanged at every other path. -/
theorem scan_step_cache_other (fs : String → FileAttrs) (req : ScanRequest) (t : Nat)
    (acc : ScanAcc) (p q : String) (h : q ≠ p) :
    (scan_step fs req t acc p).cache q = acc.cache q := by
  dsimp only [scan_step]
  split
  · simp [upsert, h]
  · rfl

/-- After processing a file, the cache holds exactly the entry that was
used for it. -/
theorem scan_step_cache_self (fs : String → FileAttrs) (req : ScanRequest) (t : Nat)
    (acc : ScanAcc) (p : String) :
    (scan_step fs req t acc p).cache p
      = some (used_info fs req.force_reload acc.cache p) := by
  dsimp only [scan_step]
  by_cases hrep : needs_reprobe req.force_reload (acc.cache p) (fs p).mtime = true
  · rw [if_pos hrep, used_info_of_reprobe fs req.force_reload acc.cache p hrep]
    simp [upsert]
  · have hfalse : needs_reprobe req.force_reload (acc.cache p) (fs p).mtime = false :=
      Bool.eq_false_iff.mpr hrep
    rw [if_neg hrep]
    rcases (needs_reprobe_false_iff _ _ _).mp hfalse with ⟨hf, e, he, hm⟩
    rw [he, hf, used_info_stored fs acc.cache p e he hm]

/-! The claims. -/

/-- C1: for every file of the walk, the cached entry is used as-is with
neither probing collaborator invoked exactly when a prior entry exists,
force_reload is false and the stored mtime equals the current one; in
every other case both collaborators are invoked for the file and its
cache entry is overwritten with the fresh duration, orientation and
current mtime. -/
theorem C1_staleness_rule (fs : String → FileAttrs) (req : ScanRequest)
    (total : Nat) (acc : ScanAcc) (p : String) :
    (needs_reprobe req.force_reload (acc.cache p) (fs p).mtime = false ↔
      req.force_reload = false ∧ ∃ e, acc.cache p = some e ∧ e.mtime = (fs p).mtime)
    ∧ (needs_reprobe req.force_reload (acc.cache p) (fs p).mtime = false →
        (scan_step fs req total acc p).probed_durations = acc.probed_durations
        ∧ (scan_step fs req total acc p).probed_dims = acc.probed_dims
        ∧ (scan_step fs req total acc p).cache = acc.cache
        ∧ ∀ e, acc.cache p = some e → used_info fs req.force_reload acc.cache p = e)
    ∧ (needs_reprobe req.force_reload (acc.cache p) (fs p).mtime = true →
        (scan_step fs req total acc p).probed_durations = acc.probed_durations ++ [p]
        ∧ (scan_step fs req total acc p).probed_dims = acc.probed_dims ++ [p]
        ∧ (scan_step fs req total acc p).cache = upsert acc.cache p (fresh_info fs p)) := by
  refine ⟨needs_reprobe_false_iff _ _ _, fun h => ?_, fun h => ?_⟩
  · rcases (needs_reprobe_false_iff _ _ _).mp h with ⟨hf, e, he, hm⟩
    refine ⟨?_, ?_, ?_, ?_⟩
    · dsimp only [scan_step]; rw [if_neg (by simp [h])]
    · dsimp only [scan_step]; rw [if_neg (by simp [h])]
    · dsimp only [scan_step]; rw [if_neg (by simp [h])]
    · intro e2 he2
      have heq : e2 = e := Option.some.inj (he2.symm.trans he)
      rw [hf, heq]
      exact used_info_stored fs acc.cache p e he hm
  · refine ⟨?_, ?_, ?_⟩
    · dsimp only [scan_step]; rw [if_pos h]
    · dsimp only [scan_step]; rw [if_pos h]
    · dsimp only [scan_step]; rw [if_pos h]

/-- C2 counterexample: a file whose dimensions cv2 cannot read is
reported as width 0 and height 0, and detect_orientation classifies it
"Vertical", never the "Both" sentinel, so it does match a Vertical
filter. -/
theorem C2_counterexample :
    detect_orientation 0 0 = "Vertical" ∧ detect_orientation 0 0 ≠ "Both" := by
  constructor
  · decide
  · decide

/-- C2 amended: width strictly greater than height classifies
Horizontal; height at least width (ties included) classifies Vertical;
the "Both" branch of detect_orientation is unreachable, so unreadable
dimensions, which cv2 reports as 0 by 0, classify Vertical; an entry
whose stored orientation is the string "Both" would still match only an
unfiltered request, since a Vertical or Horizontal filter skips any
entry whose orientation differs from it while the filter "Both" skips
nothing. -/
theorem C2_orientation_classification (w h : ℚ) (filt o : String) :
    (w > h → detect_orientation w h = "Horizontal")
    ∧ (h ≥ w → detect_orientation w h = "Vertical")
    ∧ detect_orientation w h ≠ "Both"
    ∧ skip_orientation "Both" o = false
    ∧ (filt ≠ "Both" → o ≠ filt → skip_orientation filt o = true) := by
  refine ⟨fun hwh => ?_, fun hhw => ?_, ?_, ?_, fun h1 h2 => ?_⟩
  · simp [detect_orientation, hwh]
  · have hn : ¬ w > h := not_lt.mpr hhw
    simp [detect_orientation, hn, hhw]
  · by_cases hwh : w > h
    · simp [detect_orientation, hwh]
    · have hhw : h ≥ w := le_of_not_lt hwh
      simp [detect_orientation, hwh, hhw]
  · simp [skip_orientation]
  · simp [skip_orientation, h1, h2]

/-- A parse error message such as the one json raises on a corrupt
store. -/
def corrupt_msg : String := "Expecting value"

/-- C3 counterexample: when the store file exists but json.load fails,
the constructor propagates the error instead of yielding the empty
mapping, since lines 54-60 guard only against an absent file. -/
theorem C3_counterexample :
    load_cache (CacheStore.present (Except.error corrupt_msg)) = Except.error corrupt_msg
    ∧ load_cache (CacheStore.present (Except.error corrupt_msg)) ≠ Except.ok emptyCache := by
  constructor
  · rfl
  · intro h
    exact Except.noConfusion h

/-- C4 counterexample: with folder "/a/b", the cache entry of
"/a/bc/v.mp4" does not fall under the folder, being in the sibling
folder "/a/bc", yet reload_current_folder_keys deletes it, because the
startswith test uses no path separator. -/
theorem C4_counterexample :
    spec_falls_under ("/a/b").toList ("/a/bc/v.mp4").toList = false
    ∧ reload_current_folder_keys
        [(("/a/bc/v.mp4").toList, { duration := 1, orientation := "Horizontal", mtime := 0 })]
        ("/a/b").toList = [] := by
  constructor
  · decide
  · decide

/-- Every list of characters starts with itself. -/
theorem starts_with_refl (s : List Char) : starts_with s s = true := by
  induction s with
  | nil => rfl
  | cons c t ih => simp [starts_with, ih]

/-- A list that starts with an appended pair starts with the left
part. -/
theorem starts_with_of_append (s a b : List Char)
    (h : starts_with s (a ++ b) = true) : starts_with s a = true := by
  induction a generalizing s with
  | nil => cases s <;> rfl
  | cons d t ih =>
    cases s with
    | nil => simp [starts_with] at h
    | cons c s2 =>
      simp only [List.cons_append, starts_with, Bool.and_eq_true, decide_eq_true_eq] at h ⊢
      exact ⟨h.1, ih s2 h.2⟩

/-- C4 amended: the forced invalidation deletes exactly the entries
whose normalized path starts with the normalized folder string; every
entry falling under the folder is deleted, but an entry of a sibling
folder whose name extends the folder name as a string prefix is deleted
as well, not retained. -/
theorem C4_remove_under_folder (cache : List (List Char × Entry)) (folder : List Char)
    (kv : List Char × Entry) :
    (kv ∈ reload_current_folder_keys cache folder ↔
      kv ∈ cache ∧ starts_with kv.1 folder = false)
    ∧ (spec_falls_under folder kv.1 = true →
        kv ∉ reload_current_folder_keys cache folder) := by
  constructor
  · simp [reload_current_folder_keys, List.mem_filter]
  · intro hu hmem
    have h1 : starts_with kv.1 folder = false := by
      have h2 := (List.mem_filter.mp hmem).2
      simpa using h2
    have h3 : starts_with kv.1 folder = true := by
      have hu2 : kv.1 = folder ∨ starts_with kv.1 (folder ++ ['/']) = true := by
        simpa [spec_falls_under] using hu
      rcases hu2 with h | h
      · rw [h]
        exact starts_with_refl folder
      · exact starts_with_of_append kv.1 folder ['/'] h
    rw [h1] at h3
    exact Bool.false_ne_true h3

/-- C5: a file is excluded when its entry orientation differs from a
non-Both filter; excluded when max_length is nonzero and the duration
strictly exceeds it; max_length 0 applies no length filter, so a file
of duration 45 is excluded under max_length 30 yet included under
max_length 0; a file passing both filters is appended. -/
theorem C5_filter_application (fs : String → FileAttrs) (req : ScanRequest)
    (total : Nat) (acc : ScanAcc) (p : String) :
    ((req.orientation ≠ "Both" ∧
        (used_info fs req.force_reload acc.cache p).orientation ≠ req.orientation) →
      (scan_step fs req total acc p).videos = acc.videos)
    ∧ ((req.max_length ≠ 0 ∧
        (used_info fs req.force_reload acc.cache p).duration > req.max_length) →
      (scan_step fs req total acc p).videos = acc.videos)
    ∧ (((req.orientation = "Both" ∨
          (used_info fs req.force_reload acc.cache p).orientation = req.orientation)
        ∧ (req.max_length = 0 ∨
          ¬ (used_info fs req.force_reload acc.cache p).duration > req.max_length)) →
      (scan_step fs req total acc p).videos = acc.videos ++ [p])
    ∧ skip_length 30 45 = true ∧ skip_length 0 45 = false := by
  refine ⟨fun h => ?_, fun h => ?_, fun h => ?_, by decide, by decide⟩
  · have hk : keep_file req (used_info fs req.force_reload acc.cache p) = false := by
      simp [keep_file, skip_orientation, h.1, h.2]
    dsimp only [scan_step]
    rw [if_neg (by simp [hk])]
  · have hk : keep_file req (used_info fs req.force_reload acc.cache p) = false := by
      simp [keep_file, skip_length, h.1, h.2]
    dsimp only [scan_step]
    rw [if_neg (by simp [hk])]
  · have ho : skip_orientation req.orientation
        (used_info fs req.force_reload acc.cache p).orientation = false := by
      rcases h.1 with h1 | h1 <;> simp [skip_orientation, h1]
    have hl : skip_length req.max_length
        (used_info fs req.force_reload acc.cache p).duration = false := by
      rcases h.2 with h2 | h2 <;> simp [skip_length, h2]
    have hk : keep_file req (used_info fs req.force_reload acc.cache p) = true := by
      simp [keep_file, ho, hl]
    dsimp only [scan_step]
    rw [if_pos (by simp [hk])]

/-- Sample collaborator responses: a file whose duration probe fails. -/
def fs_probe_fail : String → FileAttrs := fun _ => ⟨5, none, 1920, 1080⟩

/-- Sample collaborator responses: a 45 second horizontal file. -/
def fs45 : String → FileAttrs := fun _ => ⟨7, some 45, 1920, 1080⟩

/-- Sample request: no orientation filter, no length limit. -/
def req_both_0 : ScanRequest := ⟨"Both", 0, false⟩

/-- Sample path. -/
def pA : String := "a"

/-- Another sample path. -/
def pB : String := "b"

/-- C7: when the duration probe fails for a file that is being probed,
the stored entry carries the sentinel duration 999999, the scan goes on,
and the file is excluded from any result whose nonzero max_length lies
below the sentinel yet still appended in a scan with max_length 0 when
its orientation passes. -/
theorem C7_probe_failure (fs : String → FileAttrs) (req : ScanRequest)
    (total : Nat) (acc : ScanAcc) (p : String)
    (hfail : (fs p).ffprobe = none)
    (hrep : needs_reprobe req.force_reload (acc.cache p) (fs p).mtime = true) :
    (fresh_info fs p).duration = 999999
    ∧ (scan_step fs req total acc p).cache p = some (fresh_info fs p)
    ∧ (req.max_length ≠ 0 → req.max_length < 999999 →
        (scan_step fs req total acc p).videos = acc.videos)
    ∧ (req.max_length = 0 →
        skip_orientation req.orientation (fresh_info fs p).orientation = false →
        (scan_step fs req total acc p).videos = acc.videos ++ [p]) := by
  have hdur : (fresh_info fs p).duration = 999999 := by
    simp [fresh_info, get_video_length, hfail]
  have hused : used_info fs req.force_reload acc.cache p = fresh_info fs p :=
    used_info_of_reprobe fs req.force_reload acc.cache p hrep
  refine ⟨hdur, ?_, fun h0 hlt => ?_, fun h0 ho => ?_⟩
  · rw [scan_step_cache_self fs req total acc p, hused]
  · have hk : keep_file req (used_info fs req.force_reload acc.cache p) = false := by
      rw [hused]
      have hgt : (fresh_info fs p).duration > req.max_length := by
        rw [hdur]; exact hlt
      simp [keep_file, skip_length, h0, hgt]
    dsimp only [scan_step]
    rw [if_neg (by simp [hk])]
  · have hk : keep_file req (used_info fs req.force_reload acc.cache p) = true := by
      rw [hused]
      simp [keep_file, skip_length, h0, ho]
    dsimp only [scan_step]
    rw [if_pos (by simp [hk])]

/-- C7 witness: concrete failed probe on a cold cache under an
unfiltered request. -/
theorem C7_probe_failure_witness :
    (fresh_info fs_probe_fail pA).duration = 999999
    ∧ (scan_step fs_probe_fail req_both_0 1 (init_acc emptyCache) pA).cache pA
        = some (fresh_info fs_probe_fail pA)
    ∧ (req_both_0.max_length ≠ 0 → req_both_0.max_length < 999999 →
        (scan_step fs_probe_fail req_both_0 1 (init_acc emptyCache) pA).videos
          = (init_acc emptyCache).videos)
    ∧ (req_both_0.max_length = 0 →
        skip_orientation req_both_0.orientation (fresh_info fs_probe_fail pA).orientation
            = false →
        (scan_step fs_probe_fail req_both_0 1 (init_acc emptyCache) pA).videos
          = (init_acc emptyCache).videos ++ [pA]) :=
  C7_probe_failure fs_probe_fail req_both_0 1 (init_acc emptyCache) pA rfl rfl

/-! Lemmas about the whole walk. -/

/-- The duration probe record only grows along the walk. -/
theorem probed_durations_mono (fs : String → FileAttrs) (req : ScanRequest) (t : Nat)
    (files : List String) (acc : ScanAcc) (p : String)
    (h : p ∈ acc.probed_durations) :
    p ∈ (files.foldl (scan_step fs req t) acc).probed_durations := by
  induction files generalizing acc with
  | nil => simpa using h
  | cons f rest ih =>
    rw [List.foldl_cons]
    apply ih
    show p ∈ (scan_step fs req t acc f).probed_durations
    dsimp only [scan_step]
    split
    · exact List.mem_append_left _ h
    · exact h

/-- A walked file with no prior cache entry is probed during the walk. -/
theorem probed_of_missing (fs : String → FileAttrs) (req : ScanRequest) (t : Nat)
    (files : List String) (acc : ScanAcc) (p : String)
    (hmem : p ∈ files) (hnone : acc.cache p = none) :
    p ∈ (files.foldl (scan_step fs req t) acc).probed_durations := by
  induction files generalizing acc with
  | nil => cases hmem
  | cons f rest ih =>
    rw [List.foldl_cons]
    by_cases hf : f = p
    · subst hf
      apply probed_durations_mono
      show f ∈ (scan_step fs req t acc f).probed_durations
      have hrep : needs_reprobe req.force_reload (acc.cache f) (fs f).mtime = true := by
        simp [needs_reprobe, hnone]
      dsimp only [scan_step]
      rw [if_pos hrep]
      exact List.mem_append_right _ (List.mem_singleton.mpr rfl)
    · rcases List.mem_cons.mp hmem with h1 | h2
      · exact absurd h1.symm hf
      · refine ih (scan_step fs req t acc f) h2 ?_
        rw [scan_step_cache_other fs req t acc f p (fun hpf => hf hpf.symm)]
        exact hnone

/-- C3 amended: loading yields the persisted mapping when the store is
present and parseable and the empty mapping when the store is absent (a
cold start, after which the scan probes every walked file); but a store
that exists and is corrupt makes json.load raise, and the constructor
propagates that error to the caller instead of yielding an empty
mapping. -/
theorem C3_load_cache_behaviour (m : Except String Cache)
    (fs : String → FileAttrs) (req : ScanRequest) (files : List String) (p : String) :
    load_cache CacheStore.absent = Except.ok emptyCache
    ∧ load_cache (CacheStore.present m) = m
    ∧ (p ∈ files → p ∈ (run_scan fs req files emptyCache).probed_durations) := by
  refine ⟨rfl, rfl, fun hp => ?_⟩
  exact probed_of_missing fs req files.length files (init_acc emptyCache) p hp rfl

/-- The progress events and count of any stretch of the walk: one event
per file, counting up by one from the entry count. -/
theorem foldl_events_count (fs : String → FileAttrs) (req : ScanRequest) (t : Nat)
    (files : List String) (acc : ScanAcc) :
    (files.foldl (scan_step fs req t) acc).events
      = acc.events ++ (List.range files.length).map (fun i => (acc.count + i + 1, t))
    ∧ (files.foldl (scan_step fs req t) acc).count = acc.count + files.length := by
  induction files generalizing acc with
  | nil => simp
  | cons f rest ih =>
    obtain ⟨ih1, ih2⟩ := ih (scan_step fs req t acc f)
    have hev : (scan_step fs req t acc f).events = acc.events ++ [(acc.count + 1, t)] := rfl
    have hct : (scan_step fs req t acc f).count = acc.count + 1 := rfl
    rw [List.foldl_cons]
    constructor
    · rw [ih1, hev, hct, List.length_cons, List.range_succ_eq_map, List.map_cons,
        List.map_map, List.append_assoc]
      have hf : ((fun i => (acc.count + i + 1, t)) ∘ Nat.succ)
          = fun i => (acc.count + 1 + i + 1, t) := by
        funext i
        show (acc.count + (i + 1) + 1, t) = (acc.count + 1 + i + 1, t)
        rw [Nat.add_comm i 1, ← Nat.add_assoc]
      rw [hf]
      norm_num
    · rw [ih2, hct, List.length_cons]
      omega

/-- The progress events of one whole scan are (1, n) up to (n, n). -/
theorem run_scan_events (fs : String → FileAttrs) (req : ScanRequest)
    (files : List String) (c : Cache) :
    (run_scan fs req files c).events
      = (List.range files.length).map (fun i => (i + 1, files.length)) := by
  have h := (foldl_events_count fs req files.length files (init_acc c)).1
  simpa [run_scan, init_acc] using h

/-- C6: one scan over n matching files emits exactly one progress event
per file, kept or skipped, the i-th event being (i + 1, n), so the
counts rise by 1 each step and reach the total n exactly once at the
end; an empty folder emits no events and yields the empty result. -/
theorem C6_progress_reporting (fs : String → FileAttrs) (req : ScanRequest)
    (files : List String) (c : Cache) :
    (run_scan fs req files c).events
      = (List.range files.length).map (fun i => (i + 1, files.length))
    ∧ (run_scan fs req files c).events.length = files.length
    ∧ (files ≠ [] →
        (run_scan fs req files c).events.getLast?
          = some (files.length, files.length))
    ∧ (files = [] → (run_scan fs req files c).events = []
        ∧ (run_scan fs req files c).videos = []) := by
  refine ⟨run_scan_events fs req files c, ?_, fun hne => ?_, fun hnil => ?_⟩
  · rw [run_scan_events fs req files c]
    simp
  · rw [run_scan_events fs req files c]
    rcases List.exists_cons_of_ne_nil hne with ⟨f, rest, hcons⟩
    subst hcons
    rw [show (f :: rest).length = rest.length + 1 from rfl, List.range_succ,
      List.map_append, List.map_singleton, List.getLast?_concat]
  · subst hnil
    exact ⟨rfl, rfl⟩

/-- The last and second to last members of a list ending in two given
members. -/
theorem getLast_append_two {α : Type} (l : List α) (a b : α) :
    (l ++ [a, b]).getLast? = some b ∧ (l ++ [a, b]).dropLast.getLast? = some a := by
  have h : l ++ [a, b] = (l ++ [a]) ++ [b] := by simp
  constructor
  · rw [h, List.getLast?_concat]
  · rw [h, List.dropLast_concat, List.getLast?_concat]

/-- C8: the trace of one scan ends with one cache persist attempt
followed by the single terminal completion event carrying the filtered
list; the completion event occurs exactly once, and its payload is the
same whether the persist succeeds or fails, a persist failure being
caught and only logged. -/
theorem C8_persist_then_complete (fs : String → FileAttrs) (req : ScanRequest)
    (files : List String) (c : Cache) (ok : Bool) :
    run_trace fs req files c ok
      = ((run_scan fs req files c).events.map (fun pr => ScanEvent.progress pr.1 pr.2))
        ++ [ScanEvent.persist ok, ScanEvent.completed (run_scan fs req files c).videos]
    ∧ (run_trace fs req files c ok).countP is_completed = 1
    ∧ (run_trace fs req files c ok).getLast?
        = some (ScanEvent.completed (run_scan fs req files c).videos)
    ∧ (run_trace fs req files c ok).dropLast.getLast? = some (ScanEvent.persist ok)
    ∧ (run_trace fs req files c true).getLast? = (run_trace fs req files c false).getLast? := by
  refine ⟨rfl, ?_, ?_, ?_, ?_⟩
  · show (((run_scan fs req files c).events.map (fun pr => ScanEvent.progress pr.1 pr.2))
        ++ [ScanEvent.persist ok,
            ScanEvent.completed (run_scan fs req files c).videos]).countP is_completed = 1
    rw [List.countP_append]
    have h1 : ((run_scan fs req files c).events.map
        (fun pr => ScanEvent.progress pr.1 pr.2)).countP is_completed = 0 := by
      rw [List.countP_eq_zero]
      intro e he
      rcases List.mem_map.mp he with ⟨pr, _, hpr⟩
      rw [← hpr]
      simp [is_completed]
    rw [h1]
    simp [List.countP_cons, is_completed]
  · exact (getLast_append_two _ _ _).1
  · exact (getLast_append_two _ _ _).2
  · exact ((getLast_append_two _ _ _).1).trans ((getLast_append_two _ _ _).1).symm

/-- The cache holds a usable entry for a path: present, with the current
modification time. -/
def fresh_at (fs : String → FileAttrs) (c : Cache) (p : String) : Prop :=
  ∃ e, c p = some e ∧ e.mtime = (fs p).mtime

/-- A usable entry turns the reprobe condition off when force_reload is
off. -/
theorem needs_reprobe_of_fresh (fs : String → FileAttrs) (c : Cache) (p : String)
    (h : fresh_at fs c p) :
    needs_reprobe false (c p) (fs p).mtime = false := by
  rcases h with ⟨e, he, hm⟩
  simp [needs_reprobe, he, hm]

/-- Without force_reload, processing any file preserves the cache at
every path that already holds a usable entry. -/
theorem scan_step_fresh_preserve (fs : String → FileAttrs) (req : ScanRequest) (t : Nat)
    (acc : ScanAcc) (p q : String)
    (hforce : req.force_reload = false)
    (h : fresh_at fs acc.cache q) :
    (scan_step fs req t acc p).cache q = acc.cache q := by
  by_cases hqp : q = p
  · subst hqp
    have hrep : needs_reprobe req.force_reload (acc.cache q) (fs q).mtime = false := by
      rw [hforce]
      exact needs_reprobe_of_fresh fs acc.cache q h
    show (if needs_reprobe req.force_reload (acc.cache q) (fs q).mtime
        then upsert acc.cache q (fresh_info fs q) else acc.cache) q = acc.cache q
    rw [if_neg (by simp [hrep])]
  · exact scan_step_cache_other fs req t acc p q hqp

/-- Without force_reload, the whole walk preserves the cache at every
path that already holds a usable entry. -/
theorem foldl_fresh_preserve (fs : String → FileAttrs) (req : ScanRequest) (t : Nat)
    (files : List String) (acc : ScanAcc) (q : String)
    (hforce : req.force_reload = false)
    (h : fresh_at fs acc.cache q) :
    (files.foldl (scan_step fs req t) acc).cache q = acc.cache q := by
  induction files generalizing acc with
  | nil => rfl
  | cons f rest ih =>
    rw [List.foldl_cons]
    have hstep := scan_step_fresh_preserve fs req t acc f q hforce h
    have h2 : fresh_at fs (scan_step fs req t acc f).cache q := by
      rcases h with ⟨e, he, hm⟩
      exact ⟨e, hstep.trans he, hm⟩
    rw [ih _ h2, hstep]

/-- After a walk without force_reload, every walked path holds a usable
entry. -/
theorem foldl_fresh_mem (fs : String → FileAttrs) (req : ScanRequest) (t : Nat)
    (files : List String) (acc : ScanAcc) (p : String)
    (hforce : req.force_reload = false) (hmem : p ∈ files) :
    fresh_at fs (files.foldl (scan_step fs req t) acc).cache p := by
  induction files generalizing acc with
  | nil => cases hmem
  | cons f rest ih =>
    rw [List.foldl_cons]
    rcases List.mem_cons.mp hmem with hpf | hpr
    · subst hpf
      have hfresh1 : fresh_at fs (scan_step fs req t acc p).cache p :=
        ⟨used_info fs req.force_reload acc.cache p,
          scan_step_cache_self fs req t acc p,
          used_info_mtime fs req.force_reload acc.cache p⟩
      have hpres := foldl_fresh_preserve fs req t rest (scan_step fs req t acc p) p
        hforce hfresh1
      rcases hfresh1 with ⟨e, he, hm⟩
      exact ⟨e, hpres.trans he, hm⟩
    · exact ih _ hpr

/-- Without force_reload, the videos produced by a stretch of the walk
are the files that pass both filters judged by the entries held in the
final cache. -/
theorem foldl_videos_final (fs : String → FileAttrs) (req : ScanRequest) (t : Nat)
    (files : List String) (acc : ScanAcc)
    (hforce : req.force_reload = false) :
    (files.foldl (scan_step fs req t) acc).videos
      = acc.videos ++ files.filter (fun p =>
          keep_file req (used_info fs req.force_reload
            ((files.foldl (scan_step fs req t) acc).cache) p)) := by
  induction files generalizing acc with
  | nil => simp
  | cons f rest ih =>
    rw [List.foldl_cons]
    have ih2 := ih (scan_step fs req t acc f)
    have hself := scan_step_cache_self fs req t acc f
    have hfresh1 : fresh_at fs (scan_step fs req t acc f).cache f :=
      ⟨used_info fs req.force_reload acc.cache f, hself,
        used_info_mtime fs req.force_reload acc.cache f⟩
    have hpres := foldl_fresh_preserve fs req t rest (scan_step fs req t acc f) f
      hforce hfresh1
    have hcf : (rest.foldl (scan_step fs req t) (scan_step fs req t acc f)).cache f
        = some (used_info fs req.force_reload acc.cache f) := hpres.trans hself
    have hused : used_info fs req.force_reload
        ((rest.foldl (scan_step fs req t) (scan_step fs req t acc f)).cache) f
        = used_info fs req.force_reload acc.cache f := by
      rw [hforce] at hcf ⊢
      exact used_info_stored fs _ f _ hcf (used_info_mtime fs false acc.cache f)
    have hvid : (scan_step fs req t acc f).videos
        = if keep_file req (used_info fs req.force_reload acc.cache f)
          then acc.videos ++ [f] else acc.videos := rfl
    rw [ih2, hvid, List.filter_cons, hused]
    by_cases hk : keep_file req (used_info fs req.force_reload acc.cache f) = true
    · rw [if_pos hk, if_pos hk, List.append_assoc]
      rfl
    · rw [if_neg hk, if_neg hk]

/-- When every walked path already holds a usable entry and force_reload
is off, the walk leaves the cache untouched and filters by the entries
already held. -/
theorem foldl_noop_of_fresh (fs : String → FileAttrs) (req : ScanRequest) (t : Nat)
    (files : List String) (acc : ScanAcc)
    (hforce : req.force_reload = false)
    (h : ∀ p ∈ files, fresh_at fs acc.cache p) :
    (files.foldl (scan_step fs req t) acc).cache = acc.cache
    ∧ (files.foldl (scan_step fs req t) acc).videos
      = acc.videos ++ files.filter (fun p =>
          keep_file req (used_info fs req.force_reload acc.cache p)) := by
  induction files generalizing acc with
  | nil => exact ⟨rfl, by simp⟩
  | cons f rest ih =>
    have hf := h f (List.mem_cons_self f rest)
    have hrep : needs_reprobe req.force_reload (acc.cache f) (fs f).mtime = false := by
      rw [hforce]
      exact needs_reprobe_of_fresh fs acc.cache f hf
    have hcache : (scan_step fs req t acc f).cache = acc.cache := by
      show (if needs_reprobe req.force_reload (acc.cache f) (fs f).mtime
          then upsert acc.cache f (fresh_info fs f) else acc.cache) = acc.cache
      rw [if_neg (by simp [hrep])]
    have hvid : (scan_step fs req t acc f).videos
        = if keep_file req (used_info fs req.force_reload acc.cache f)
          then acc.videos ++ [f] else acc.videos := rfl
    obtain ⟨ihc, ihv⟩ := ih (scan_step fs req t acc f) (by
      intro p hp
      rw [hcache]
      exact h p (List.mem_cons_of_mem f hp))
    rw [List.foldl_cons]
    refine ⟨ihc.trans hcache, ?_⟩
    rw [ihv, hcache, hvid, List.filter_cons]
    by_cases hk : keep_file req (used_info fs req.force_reload acc.cache f) = true
    · rw [if_pos hk, if_pos hk, List.append_assoc]
      rfl
    · rw [if_neg hk, if_neg hk]

/-- The result of a scan without force_reload, judged by its own final
cache. -/
theorem run_scan_videos_final (fs : String → FileAttrs) (req : ScanRequest)
    (files : List String) (c : Cache) (hforce : req.force_reload = false) :
    (run_scan fs req files c).videos
      = files.filter (fun p =>
          keep_file req (used_info fs req.force_reload (run_scan fs req files c).cache p)) := by
  have h := foldl_videos_final fs req files.length files (init_acc c) hforce
  simpa [run_scan, init_acc] using h

/-- A scan without force_reload over a cache already usable for every
walked file changes nothing and filters by the entries held. -/
theorem run_scan_noop (fs : String → FileAttrs) (req : ScanRequest)
    (files : List String) (c : Cache) (hforce : req.force_reload = false)
    (h : ∀ p ∈ files, fresh_at fs c p) :
    (run_scan fs req files c).cache = c
    ∧ (run_scan fs req files c).videos
      = files.filter (fun p => keep_file req (used_info fs req.force_reload c p)) := by
  have h2 := foldl_noop_of_fresh fs req files.length files (init_acc c) hforce
    (fun p hp => h p hp)
  constructor
  · simpa [run_scan, init_acc] using h2.1
  · simpa [run_scan, init_acc] using h2.2

/-- C9: scanning the same unchanged folder twice in a row with the same
filters and force_reload off produces the same result sequence, before
any caller-side shuffling. -/
theorem C9_rescan_idempotent (fs : String → FileAttrs) (req : ScanRequest)
    (files : List String) (c : Cache)
    (hforce : req.force_reload = false) :
    (run_scan fs req files ((run_scan fs req files c).cache)).videos
      = (run_scan fs req files c).videos := by
  have hfresh : ∀ p ∈ files, fresh_at fs (run_scan fs req files c).cache p := fun p hp =>
    foldl_fresh_mem fs req files.length files (init_acc c) p hforce hp
  have hno := run_scan_noop fs req files ((run_scan fs req files c).cache) hforce hfresh
  rw [hno.2, run_scan_videos_final fs req files c hforce]

/-- C9 witness: two files scanned twice from a cold cache under an
unfiltered request; the second scan returns the same list. -/
theorem C9_rescan_idempotent_witness :
    req_both_0.force_reload = false
    ∧ (run_scan fs45 req_both_0 [pA, pB]
          ((run_scan fs45 req_both_0 [pA, pB] emptyCache).cache)).videos
        = (run_scan fs45 req_both_0 [pA, pB] emptyCache).videos
    ∧ (run_scan fs45 req_both_0 [pA, pB] emptyCache).videos = [pA, pB] :=
  ⟨rfl, C9_rescan_idempotent fs45 req_both_0 [pA, pB] emptyCache rfl, by decide⟩

/-- Processing a walk never touches the cache outside the walked
paths. -/
theorem foldl_cache_not_mem (fs : String → FileAttrs) (req : ScanRequest) (t : Nat)
    (files : List String) (acc : ScanAcc) (p : String) (hp : p ∉ files) :
    (files.foldl (scan_step fs req t) acc).cache p = acc.cache p := by
  induction files generalizing acc with
  | nil => rfl
  | cons f rest ih =>
    have hpf : p ≠ f := fun h => hp (h ▸ List.mem_cons_self f rest)
    have hpr : p ∉ rest := fun h => hp (List.mem_cons_of_mem f h)
    rw [List.foldl_cons, ih _ hpr, scan_step_cache_other fs req t acc f p hpf]

/-- C10: a scan only writes cache entries for the files it encounters
under its root; every other entry of the loaded mapping, including
entries for paths outside the root folder and for files that no longer
exist, is preserved unchanged in the in-memory mapping, and hence in the
persisted snapshot, which is the final mapping itself. -/
theorem C10_cache_frame (fs : String → FileAttrs) (req : ScanRequest)
    (files : List String) (c : Cache) (p : String) (hp : p ∉ files) :
    (run_scan fs req files c).cache p = c p :=
  foldl_cache_not_mem fs req files.length files (init_acc c) p hp

/-- C10 witness: a path outside the walk keeps its absent entry. -/
theorem C10_cache_frame_witness :
    pB ∉ [pA]
    ∧ (run_scan fs45 req_both_0 [pA] emptyCache).cache pB = emptyCache pB :=
  ⟨by decide, C10_cache_frame fs45 req_both_0 [pA] emptyCache pB (by decide)⟩

end RVP
